import Mathlib

/-!
Shallow embedding of `simgrid-league-results-composer`.

The repository contains two sibling TypeScript implementations of the same
aggregation pipeline:

* `src/merge-results.ts` — embedded below in namespace `MergeResults`;
* `src/unnamed/part_000` — embedded below in namespace `Part000`.

Both files share identical type declarations (`Race`, `Standing`,
`ClassData`, `MergedStanding`, `MergedClassData`) and identical
`sortStandingsByPoints` and `assignPositions` functions, so those are
embedded once at top level.  The files differ in the body of the
accumulation branch of `mergeStandingsByDriver` and in the report
formatter, so those are embedded per namespace.

Conventions of the embedding:
* TypeScript `number` is modelled as `Int` (all numeric fields hold
  integral values in the data the program processes);
* JavaScript strings are modelled as Lean `String`, with the JS string
  operations (`trim`, `substring`, `padStart`, `padEnd`, `repeat`)
  re-expressed over the underlying character list so that they are
  kernel-computable;
* a JavaScript `Map` (which preserves insertion order and is iterated in
  insertion order by `Array.from(map.values())`) is modelled as an
  association list of `MergedStanding` records keyed by their `id` field;
* `Array.prototype.sort`, which is guaranteed stable with a consistent
  comparator, is modelled by `List.insertionSort`, a stable sort, using
  the order "comparator result ≤ 0";
* the `async` I/O shell (`readdir`/`readFile`/`JSON.parse`/`writeFile`)
  is modelled by passing in the list of directory entries together with
  the parse outcome of each file's content, and returning `Except`.
-/

/-- Race from both source files: one driver's outcome in a single race. -/
structure Race where
  position : Int
  pointsGiven : Int
  penaltyPoints : Option Int
  pointsTotal : Int
  dnf : Bool
  dns : Bool
deriving DecidableEq

/-- Standing from both source files: one driver's standing within one class
as reported by a single fragment. -/
structure Standing where
  position : Int
  id : String
  carNum : Int
  car : String
  championshipPoints : Int
  championshipPenalties : Int
  championshipScore : Int
  pointsAdjustment : Int
  actualPoints : Int
  races : List Race
deriving DecidableEq

/-- MergedStanding has exactly the same fields as Standing in both source
files; TypeScript typing is structural, so the two types are identical. -/
abbrev MergedStanding := Standing

/-- ClassData from both source files: a class name with its standings. -/
structure ClassData where
  carClass : String
  standings : List Standing
deriving DecidableEq

/-- MergedClassData from both source files. -/
structure MergedClassData where
  carClass : String
  standings : List MergedStanding
deriving DecidableEq

/-- The record built in the `else` branch of `mergeStandingsByDriver`
(identical in both files): position 0, scalar fields copied from the first
occurrence, races list copied. -/
def seedStanding (standing : Standing) : MergedStanding :=
  { position := 0
    id := standing.id
    carNum := standing.carNum
    car := standing.car
    championshipPoints := standing.championshipPoints
    championshipPenalties := standing.championshipPenalties
    championshipScore := standing.championshipScore
    pointsAdjustment := standing.pointsAdjustment
    actualPoints := standing.actualPoints
    races := standing.races }

/-- One iteration of the `for (const standing of standings)` loop of
`mergeStandingsByDriver`, parameterised by the accumulation performed on a
repeated driver (the only point where the two source files differ).  The
insertion-ordered `Map` is modelled as a list: an existing entry is updated
in place, a new entry is appended. -/
def mergeStepWith (f : MergedStanding → Standing → MergedStanding)
    (driverMap : List MergedStanding) (standing : Standing) : List MergedStanding :=
  if driverMap.any (fun e => e.id == standing.id) then
    driverMap.map (fun e => if e.id == standing.id then f e standing else e)
  else
    driverMap ++ [seedStanding standing]

/-- The whole loop of `mergeStandingsByDriver`, parameterised as above. -/
def mergeLoopWith (f : MergedStanding → Standing → MergedStanding)
    (standings : List Standing) : List MergedStanding :=
  standings.foldl (mergeStepWith f) []

namespace MergeResults

/-- The accumulation branch of `mergeStandingsByDriver` in
`src/merge-results.ts` (lines 71-77): all five numeric fields are summed
and the races lists are concatenated. -/
def accumulate (existing : MergedStanding) (standing : Standing) : MergedStanding :=
  { existing with
    championshipPoints := existing.championshipPoints + standing.championshipPoints
    championshipPenalties := existing.championshipPenalties + standing.championshipPenalties
    championshipScore := existing.championshipScore + standing.championshipScore
    pointsAdjustment := existing.pointsAdjustment + standing.pointsAdjustment
    actualPoints := existing.actualPoints + standing.actualPoints
    races := existing.races ++ standing.races }

/-- Embedding of `mergeStandingsByDriver` from `src/merge-results.ts` lines 65-95. -/
def mergeStandingsByDriver (standings : List Standing) : List MergedStanding :=
  mergeLoopWith accumulate standings

end MergeResults

namespace Part000

/-- The accumulation branch of `mergeStandingsByDriver` in
`src/unnamed/part_000` (lines 71-75): only championshipPoints,
championshipScore and actualPoints are summed (championshipPenalties and
pointsAdjustment keep the first-seen value) and the races lists are
concatenated. -/
def accumulate (existing : MergedStanding) (standing : Standing) : MergedStanding :=
  { existing with
    championshipPoints := existing.championshipPoints + standing.championshipPoints
    championshipScore := existing.championshipScore + standing.championshipScore
    actualPoints := existing.actualPoints + standing.actualPoints
    races := existing.races ++ standing.races }

/-- Embedding of `mergeStandingsByDriver` from `src/unnamed/part_000` lines 65-93. -/
def mergeStandingsByDriver (standings : List Standing) : List MergedStanding :=
  mergeLoopWith accumulate standings

end Part000

/-- The comparator passed to `.sort` in `sortStandingsByPoints`, identical
in both source files (returns `b.championshipPoints - a.championshipPoints`
when the points differ, otherwise
`b.championshipScore - a.championshipScore`). -/
def compareStandings (a b : MergedStanding) : Int :=
  if b.championshipPoints ≠ a.championshipPoints then
    b.championshipPoints - a.championshipPoints
  else
    b.championshipScore - a.championshipScore

/-- The order induced by the comparator: `a` may be placed before `b`
exactly when the comparator does not require swapping them. -/
def standingOrder (a b : MergedStanding) : Prop :=
  compareStandings a b ≤ 0

instance : DecidableRel standingOrder := fun a b => by
  unfold standingOrder compareStandings
  exact inferInstance

instance : IsTotal MergedStanding standingOrder where
  total a b := by
    unfold standingOrder compareStandings
    split <;> split <;> omega

instance : IsTrans MergedStanding standingOrder where
  trans a b c hab hbc := by
    unfold standingOrder compareStandings at hab hbc ⊢
    split at hab <;> split at hbc <;> split <;> omega

/-- Embedding of `sortStandingsByPoints` from both source files (`src/merge-results.ts`
lines 97-104, `src/unnamed/part_000` lines 95-102): a stable sort by the
comparator, modelled by the stable `List.insertionSort`. -/
def sortStandingsByPoints (standings : List MergedStanding) : List MergedStanding :=
  standings.insertionSort standingOrder

/-- Embedding of `assignPositions` from both source files (`src/merge-results.ts` lines
106-111, `src/unnamed/part_000` lines 104-109): copy each entry with
`position := index + 1`. -/
def assignPositions (standings : List MergedStanding) : List MergedStanding :=
  standings.enum.map (fun p => { p.2 with position := (p.1 : Int) + 1 })

/-- JS `String.prototype.padStart` with the default space filler. -/
def padStart (s : String) (width : Nat) : String :=
  String.mk (List.replicate (width - s.length) ' ') ++ s

/-- JS `String.prototype.padEnd` with the default space filler. -/
def padEnd (s : String) (width : Nat) : String :=
  s ++ String.mk (List.replicate (width - s.length) ' ')

/-- JS `String.prototype.substring(0, n)` (a negative bound is clamped to
0, which Nat subtraction reproduces at the call sites). -/
def substringTo (s : String) (n : Nat) : String :=
  String.mk (s.data.take n)

/-- Whitespace stripped by JS `String.prototype.trim`. -/
def isJsWhitespace (c : Char) : Bool :=
  c == ' ' || c == '\t' || c == '\n' || c == '\r'

/-- JS `String.prototype.trim`. -/
def trimString (s : String) : String :=
  String.mk (((s.data.dropWhile isJsWhitespace).reverse.dropWhile isJsWhitespace).reverse)

/-- JS `String.prototype.repeat` for a one-character string. -/
def repeatChar (c : Char) (n : Nat) : String :=
  String.mk (List.replicate n c)

/-- JS `Number.prototype.toFixed(0)` on an integral value. -/
def toFixed0 (n : Int) : String := toString n

/-- JS `Number.prototype.toFixed(1)` on an integral value. -/
def toFixed1 (n : Int) : String := toString n ++ ".0"

namespace MergeResults

/-- Embedding of `truncateText` from `src/merge-results.ts` lines 114-117. -/
def truncateText (text : String) (maxLength : Nat) : String :=
  if text.length ≤ maxLength then text
  else substringTo text (maxLength - 1) ++ "."

/-- Fixed column widths of `formatResultsForDiscord` in
`src/merge-results.ts` lines 123-126. -/
def POS_WIDTH : Nat := 4

/-- Driver column width in `src/merge-results.ts`. -/
def DRIVER_WIDTH : Nat := 15

/-- Car column width in `src/merge-results.ts`. -/
def CAR_WIDTH : Nat := 13

/-- Points column width in `src/merge-results.ts`. -/
def POINTS_WIDTH : Nat := 3

/-- The row pushed for one standing inside the loop of
`formatResultsForDiscord` in `src/merge-results.ts` lines 134-141. -/
def formatStandingLine (standing : MergedStanding) : String :=
  padStart (toString standing.position ++ ".") POS_WIDTH ++ " " ++
  padEnd (truncateText (trimString standing.id) DRIVER_WIDTH) DRIVER_WIDTH ++ " | " ++
  padEnd (truncateText (trimString standing.car) CAR_WIDTH) CAR_WIDTH ++ " | " ++
  padStart (toFixed0 standing.championshipPoints) POINTS_WIDTH

/-- Embedding of `formatResultsForDiscord` from `src/merge-results.ts` lines 119-147. -/
def formatResultsForDiscord (results : List MergedClassData) : String :=
  let lines : List String :=
    ["ðŸ **Standings**\n"] ++
    results.flatMap (fun classData =>
      ["**" ++ classData.carClass ++ "**", "```"] ++
      classData.standings.map formatStandingLine ++
      ["```\n"])
  String.intercalate "\n" lines

end MergeResults

namespace Part000

/-- Embedding of `formatStandingPosition` from `src/unnamed/part_000` lines 111-113. -/
def formatStandingPosition (position : Int) : String :=
  padStart (toString position ++ ".") 4

/-- Embedding of `truncateAndPad` from `src/unnamed/part_000` lines 115-120. -/
def truncateAndPad (text : String) (maxWidth : Nat) : String :=
  if text.length > maxWidth then substringTo text (maxWidth - 3) ++ "..."
  else padEnd text maxWidth

/-- Fixed column widths of `formatResultsForDiscord` in
`src/unnamed/part_000` lines 126-129. -/
def POS_WIDTH : Nat := 4

/-- Driver column width in `src/unnamed/part_000`. -/
def DRIVER_WIDTH : Nat := 30

/-- Car column width in `src/unnamed/part_000`. -/
def CAR_WIDTH : Nat := 25

/-- Points column width in `src/unnamed/part_000`. -/
def POINTS_WIDTH : Nat := 6

/-- The header row of each class table in `src/unnamed/part_000`. -/
def headerLine : String :=
  truncateAndPad "Pos" POS_WIDTH ++ " | " ++
  truncateAndPad "Driver" DRIVER_WIDTH ++ " | " ++
  truncateAndPad "Car" CAR_WIDTH ++ " | " ++
  truncateAndPad "Points" POINTS_WIDTH

/-- The dash separator row of each class table in `src/unnamed/part_000`. -/
def dashLine : String :=
  repeatChar '-' POS_WIDTH ++ " | " ++
  repeatChar '-' DRIVER_WIDTH ++ " | " ++
  repeatChar '-' CAR_WIDTH ++ " | " ++
  repeatChar '-' POINTS_WIDTH

/-- The row pushed for one standing inside the loop of
`formatResultsForDiscord` in `src/unnamed/part_000` lines 149-155. -/
def formatStandingLine (standing : MergedStanding) : String :=
  formatStandingPosition standing.position ++ " | " ++
  truncateAndPad (trimString standing.id) DRIVER_WIDTH ++ " | " ++
  truncateAndPad (trimString standing.car) CAR_WIDTH ++ " | " ++
  truncateAndPad (toFixed1 standing.championshipPoints) POINTS_WIDTH

/-- Embedding of `formatResultsForDiscord` from `src/unnamed/part_000` lines 122-162. -/
def formatResultsForDiscord (results : List MergedClassData) : String :=
  let lines : List String :=
    ["# 🏁 Championship Standings\n"] ++
    results.flatMap (fun classData =>
      ["## " ++ classData.carClass ++ "\n", "```", headerLine, dashLine] ++
      classData.standings.map formatStandingLine ++
      ["```\n"])
  String.intercalate "\n" lines

end Part000

/-- One directory entry of the intake directory: the file name together
with the outcome of `JSON.parse` on the file's content (`none` models a
parse exception, `some data` a successful parse into `ClassData[]`).  The
file system reads themselves are thin I/O glue and are modelled by passing
this list in. -/
structure FragmentFile where
  name : String
  parsed : Option (List ClassData)
deriving DecidableEq

/-- JS `file.endsWith(".json")`, expressed over the character list so that
it is kernel-computable. -/
def hasJsonExtension (name : String) : Bool :=
  name.data.drop (name.data.length - ".json".data.length) == ".json".data

/-- Embedding of `readAllJsonFiles` from `src/merge-results.ts` lines 49-63: keep the
`.json` directory entries and concatenate their parsed contents in order;
the first parse exception aborts the whole function. -/
def readAllJsonFiles (files : List FragmentFile) : Except String (List ClassData) :=
  let jsonFiles := files.filter (fun file => hasJsonExtension file.name)
  jsonFiles.foldlM (fun allData file =>
    match file.parsed with
    | some data => Except.ok (allData ++ data)
    | none => Except.error "SyntaxError: JSON.parse failed") []

/-- One iteration of the class-grouping loop of `mergeAndSortResults`
(`src/merge-results.ts` lines 156-163), with the insertion-ordered `Map`
modelled as an association list. -/
def groupStep (classMap : List (String × List Standing)) (classData : ClassData) :
    List (String × List Standing) :=
  if classMap.any (fun e => e.1 == classData.carClass) then
    classMap.map (fun e =>
      if e.1 == classData.carClass then (e.1, e.2 ++ classData.standings) else e)
  else
    classMap ++ [(classData.carClass, classData.standings)]

/-- The whole class-grouping loop of `mergeAndSortResults`. -/
def groupByClass (allClassData : List ClassData) : List (String × List Standing) :=
  allClassData.foldl groupStep []

/-- The order used by `mergedResults.sort((a, b) =>
a.carClass.localeCompare(b.carClass))` in `src/merge-results.ts` line 178,
with `localeCompare` modelled as lexicographic string comparison. -/
def classNameOrder (a b : MergedClassData) : Prop :=
  a.carClass ≤ b.carClass

instance : DecidableRel classNameOrder := fun a b => by
  unfold classNameOrder
  exact inferInstance

/-- The computational content of `mergeAndSortResults` from
`src/merge-results.ts` lines 149-187: read and parse the fragments, group
by class, merge/sort/rank each class, sort the classes by name, and format
the report.  The returned string is the one the I/O shell writes to
`result.txt` and echoes to the console; a parse failure propagates as
`Except.error` (the promise rejection caught at lines 189-192, which exits
with a non-zero status without writing). -/
def mergeAndSortResults (files : List FragmentFile) : Except String String := do
  let allClassData ← readAllJsonFiles files
  let classMap := groupByClass allClassData
  let mergedResults := classMap.map (fun entry =>
    { carClass := entry.1
      standings :=
        assignPositions (sortStandingsByPoints (MergeResults.mergeStandingsByDriver entry.2)) :
      MergedClassData })
  let sortedResults := mergedResults.insertionSort classNameOrder
  pure (MergeResults.formatResultsForDiscord sortedResults)

/-- Look up the driver `d` in a merged-standings list, mirroring what
`driverMap.get(d)` observes about the accumulated state. -/
def entryFor (standings : List MergedStanding) (d : String) : Option MergedStanding :=
  standings.find? (fun e => e.id == d)

/-- Concrete standings used as counterexample and witness inputs: the same
driver appears twice with nonzero penalties and adjustment. -/
def exStandingA : Standing :=
  { position := 1, id := "Alice", carNum := 7, car := "Porsche",
    championshipPoints := 10, championshipPenalties := 1, championshipScore := 5,
    pointsAdjustment := 2, actualPoints := 9, races := [] }

/-- Second occurrence of the same driver identity. -/
def exStandingB : Standing :=
  { position := 2, id := "Alice", carNum := 7, car := "Porsche",
    championshipPoints := 8, championshipPenalties := 1, championshipScore := 3,
    pointsAdjustment := 2, actualPoints := 7, races := [] }

/-- A third driver tied with `exStandingA` on both sort keys. -/
def exStandingC : Standing :=
  { position := 1, id := "Bob", carNum := 3, car := "BMW",
    championshipPoints := 10, championshipPenalties := 0, championshipScore := 5,
    pointsAdjustment := 0, actualPoints := 10, races := [] }

/-- A merged standing whose championshipPoints render wider than the
points column of `src/merge-results.ts`. -/
def exWideStanding : MergedStanding :=
  { position := 1, id := "Alice", carNum := 7, car := "Porsche",
    championshipPoints := 1000, championshipPenalties := 0, championshipScore := 0,
    pointsAdjustment := 0, actualPoints := 0, races := [] }

/-- A directory entry whose content does not parse. -/
def exBadFile : FragmentFile := { name := "bad.json", parsed := none }

/-- Zero the two fields on which the sibling mergers disagree. -/
def clearDisputedFields (e : MergedStanding) : MergedStanding :=
  { e with championshipPenalties := 0, pointsAdjustment := 0 }

/-- The driver ids retained in first-occurrence order, given already-seen
ids: the specification of the order of the merge loop's driver map. -/
def dedupSeen (seen : List String) : List String → List String
  | [] => []
  | x :: xs =>
    if seen.any (fun y => y == x) then dedupSeen seen xs
    else x :: dedupSeen (seen ++ [x]) xs

/-- The strict precedence relation of the spec's sort-correctness clause:
`a` beats `b` on championshipPoints, or ties on points and beats on
championshipScore. -/
def standingLexGT (a b : MergedStanding) : Prop :=
  b.championshipPoints < a.championshipPoints ∨
    (a.championshipPoints = b.championshipPoints ∧
      b.championshipScore < a.championshipScore)

/-- The index of the first occurrence of driver `d` in the class input. -/
def firstOccIdx (l : List Standing) (d : String) : Nat :=
  l.findIdx (fun s => s.id == d)

theorem standingOrder_iff (a b : MergedStanding) :
    standingOrder a b ↔
      b.championshipPoints < a.championshipPoints ∨
        (b.championshipPoints = a.championshipPoints ∧
          b.championshipScore ≤ a.championshipScore) := by
  unfold standingOrder compareStandings
  split <;> omega


section MergeLemmas

variable {f : MergedStanding → Standing → MergedStanding}

theorem seedStanding_id (s : Standing) : (seedStanding s).id = s.id := rfl

theorem any_eq_isSome_entryFor (acc : List MergedStanding) (d : String) :
    acc.any (fun e => e.id == d) = (entryFor acc d).isSome := by
  rw [Bool.eq_iff_iff]
  simp [entryFor, List.find?_isSome, List.any_eq_true]

theorem entryFor_some_id {acc : List MergedStanding} {d : String} {e : MergedStanding}
    (h : entryFor acc d = some e) : (e.id == d) = true := by
  have h' : List.find? (fun e => e.id == d) acc = some e := h
  have h2 := List.find?_some h'
  exact h2

theorem entryFor_map_update (hid : ∀ e s, (f e s).id = e.id)
    (acc : List MergedStanding) (s : Standing) (d : String) :
    entryFor (acc.map (fun e => if e.id == s.id then f e s else e)) d =
      (entryFor acc d).map (fun e => if e.id == s.id then f e s else e) := by
  induction acc with
  | nil => rfl
  | cons e t ih =>
    have hg : (if e.id == s.id then f e s else e).id = e.id := by
      by_cases h : (e.id == s.id : Bool) <;> simp [h, hid]
    by_cases hd : (e.id == d : Bool)
    · rw [List.map_cons, entryFor, List.find?_cons_of_pos _ (by rw [hg]; exact hd),
        entryFor,
        show List.find? (fun x => x.id == d) (e :: t) = some e from
          List.find?_cons_of_pos _ hd]
      rfl
    · rw [List.map_cons, entryFor, List.find?_cons_of_neg _ (by rw [hg]; exact hd),
        entryFor,
        show List.find? (fun x => x.id == d) (e :: t) = List.find? (fun x => x.id == d) t from
          List.find?_cons_of_neg _ hd]
      exact ih

theorem entryFor_append_seed (acc : List MergedStanding) (s : Standing) (d : String) :
    entryFor (acc ++ [seedStanding s]) d =
      (entryFor acc d).or (if s.id == d then some (seedStanding s) else none) := by
  unfold entryFor
  rw [List.find?_append]
  congr 1
  by_cases h : s.id == d <;> simp [List.find?, seedStanding_id, h]

theorem entryFor_mergeStep_repeat (hid : ∀ e s, (f e s).id = e.id)
    {acc : List MergedStanding} {s : Standing} {e : MergedStanding}
    (hacc : entryFor acc s.id = some e) :
    entryFor (mergeStepWith f acc s) s.id = some (f e s) := by
  unfold mergeStepWith
  rw [any_eq_isSome_entryFor, if_pos (by rw [hacc]; rfl), entryFor_map_update hid, hacc]
  have he : e.id = s.id := eq_of_beq (entryFor_some_id hacc)
  simp [he]

theorem mergeStep_fresh {acc : List MergedStanding} {s : Standing}
    (hacc : entryFor acc s.id = none) :
    mergeStepWith f acc s = acc ++ [seedStanding s] := by
  unfold mergeStepWith
  rw [any_eq_isSome_entryFor, if_neg (by rw [hacc]; simp)]

theorem entryFor_mergeStep_other (hid : ∀ e s, (f e s).id = e.id)
    {acc : List MergedStanding} {s : Standing} {d : String}
    (hne : (s.id == d) = false) :
    entryFor (mergeStepWith f acc s) d = entryFor acc d := by
  unfold mergeStepWith
  by_cases hex : acc.any (fun e => e.id == s.id)
  · rw [if_pos hex, entryFor_map_update hid]
    cases hacc : entryFor acc d with
    | none => rfl
    | some e =>
      have he := entryFor_some_id hacc
      have hne2 : (e.id == s.id) = false := by
        rw [beq_eq_false_iff_ne] at hne ⊢
        rw [eq_of_beq he]
        exact fun hh => hne hh.symm
      have hne3 : ¬ e.id = s.id := by simpa using hne2
      simp [hne3]
  · rw [if_neg hex, entryFor_append_seed, hne]
    simp

/-- Characterisation of the driver map built by the merge loop of either
implementation: the entry for driver `d` is obtained by seeding from the
first `d`-record of the input and folding the accumulation function over
the remaining `d`-records, in input order. -/
theorem entryFor_foldl_mergeStep (hid : ∀ e s, (f e s).id = e.id) :
    ∀ (l : List Standing) (acc : List MergedStanding) (d : String),
      entryFor (l.foldl (mergeStepWith f) acc) d =
        match entryFor acc d, l.filter (fun s => s.id == d) with
        | some e, occs => some (occs.foldl f e)
        | none, [] => none
        | none, s :: rest => some (rest.foldl f (seedStanding s))
  | [], acc, d => by
    cases h : entryFor acc d <;> simp [h]
  | s :: t, acc, d => by
    rw [List.foldl_cons, entryFor_foldl_mergeStep hid t (mergeStepWith f acc s) d]
    by_cases hsd : (s.id == d : Bool)
    · have hsd' : s.id = d := eq_of_beq hsd
      subst hsd'
      rw [List.filter_cons, if_pos hsd]
      cases hacc : entryFor acc s.id with
      | some e =>
        rw [entryFor_mergeStep_repeat hid hacc]
        simp
      | none =>
        rw [mergeStep_fresh hacc, entryFor_append_seed, hacc]
        simp
    · have hne : (s.id == d) = false := by simpa using hsd
      rw [entryFor_mergeStep_other hid hne, List.filter_cons, if_neg (by simp [hne])]

end MergeLemmas

/-- Folding the merge-results.ts accumulation over a list of records sums
all five numeric fields and concatenates the races lists. -/
theorem foldl_accumulate_mergeResults (occs : List Standing) :
    ∀ e : MergedStanding,
      occs.foldl MergeResults.accumulate e =
        { e with
          championshipPoints :=
            e.championshipPoints + ((occs.map (fun s => s.championshipPoints)).sum)
          championshipPenalties :=
            e.championshipPenalties + ((occs.map (fun s => s.championshipPenalties)).sum)
          championshipScore :=
            e.championshipScore + ((occs.map (fun s => s.championshipScore)).sum)
          pointsAdjustment :=
            e.pointsAdjustment + ((occs.map (fun s => s.pointsAdjustment)).sum)
          actualPoints :=
            e.actualPoints + ((occs.map (fun s => s.actualPoints)).sum)
          races := e.races ++ ((occs.map (fun s => s.races)).flatten) } := by
  induction occs with
  | nil => intro e; simp
  | cons s t ih =>
    intro e
    rw [List.foldl_cons, ih]
    simp [MergeResults.accumulate, add_assoc, List.append_assoc]

/-- Folding the part_000 accumulation over a list of records sums points,
score and actualPoints, keeps penalties and adjustment, and concatenates
the races lists. -/
theorem foldl_accumulate_part000 (occs : List Standing) :
    ∀ e : MergedStanding,
      occs.foldl Part000.accumulate e =
        { e with
          championshipPoints :=
            e.championshipPoints + ((occs.map (fun s => s.championshipPoints)).sum)
          championshipScore :=
            e.championshipScore + ((occs.map (fun s => s.championshipScore)).sum)
          actualPoints :=
            e.actualPoints + ((occs.map (fun s => s.actualPoints)).sum)
          races := e.races ++ ((occs.map (fun s => s.races)).flatten) } := by
  induction occs with
  | nil => intro e; simp
  | cons s t ih =>
    intro e
    rw [List.foldl_cons, ih]
    simp [Part000.accumulate, add_assoc, List.append_assoc]

theorem mergeResults_accumulate_id (e : MergedStanding) (s : Standing) :
    (MergeResults.accumulate e s).id = e.id := rfl

theorem part000_accumulate_id (e : MergedStanding) (s : Standing) :
    (Part000.accumulate e s).id = e.id := rfl

/-- The entry for driver `d` after the merge-results.ts merge, by field. -/
theorem entryFor_mergeResults (l : List Standing) (d : String) :
    entryFor (MergeResults.mergeStandingsByDriver l) d =
      match l.filter (fun s => s.id == d) with
      | [] => none
      | s :: rest => some (rest.foldl MergeResults.accumulate (seedStanding s)) := by
  unfold MergeResults.mergeStandingsByDriver mergeLoopWith
  rw [entryFor_foldl_mergeStep mergeResults_accumulate_id l [] d,
    show entryFor ([] : List MergedStanding) d = none from rfl]
  cases h : l.filter (fun s => s.id == d) <;> rfl

/-- The entry for driver `d` after the part_000 merge, by field. -/
theorem entryFor_part000 (l : List Standing) (d : String) :
    entryFor (Part000.mergeStandingsByDriver l) d =
      match l.filter (fun s => s.id == d) with
      | [] => none
      | s :: rest => some (rest.foldl Part000.accumulate (seedStanding s)) := by
  unfold Part000.mergeStandingsByDriver mergeLoopWith
  rw [entryFor_foldl_mergeStep part000_accumulate_id l [] d,
    show entryFor ([] : List MergedStanding) d = none from rfl]
  cases h : l.filter (fun s => s.id == d) <;> rfl

/-- C1 counterexample: in the part_000 implementation of
`mergeStandingsByDriver`, folding the second occurrence of driver "Alice"
does not sum championshipPenalties (the occurrences carry 1 + 1 = 2) nor
pointsAdjustment (2 + 2 = 4): the merged record keeps the seed values
(1, 2), so not every implementation sums all five numeric fields. -/
theorem part000_does_not_sum_all_five_fields :
    (Part000.mergeStandingsByDriver [exStandingA, exStandingB]).map
        (fun e => (e.championshipPenalties, e.pointsAdjustment)) = [(1, 2)] ∧
      exStandingA.championshipPenalties + exStandingB.championshipPenalties = 2 ∧
      exStandingA.pointsAdjustment + exStandingB.pointsAdjustment = 4 := by
  decide

/-- C1 (amended): when driver `d` occurs in the class standings list (the
filtered occurrence list is `s0 :: rest`), `mergeStandingsByDriver` of
`src/merge-results.ts` sums all five numeric fields across the
occurrences, while the one of `src/unnamed/part_000` sums only
championshipPoints, championshipScore and actualPoints and keeps the first
occurrence's championshipPenalties and pointsAdjustment. -/
theorem merge_numeric_field_policies (l : List Standing) (d : String)
    (s0 : Standing) (rest : List Standing)
    (hocc : l.filter (fun s => s.id == d) = s0 :: rest) :
    (entryFor (MergeResults.mergeStandingsByDriver l) d).map
        (fun r => (r.championshipPoints, r.championshipPenalties, r.championshipScore,
          r.pointsAdjustment, r.actualPoints)) =
      some ((((s0 :: rest).map (fun s => s.championshipPoints)).sum),
        (((s0 :: rest).map (fun s => s.championshipPenalties)).sum),
        (((s0 :: rest).map (fun s => s.championshipScore)).sum),
        (((s0 :: rest).map (fun s => s.pointsAdjustment)).sum),
        (((s0 :: rest).map (fun s => s.actualPoints)).sum)) ∧
    (entryFor (Part000.mergeStandingsByDriver l) d).map
        (fun r => (r.championshipPoints, r.championshipPenalties, r.championshipScore,
          r.pointsAdjustment, r.actualPoints)) =
      some ((((s0 :: rest).map (fun s => s.championshipPoints)).sum),
        s0.championshipPenalties,
        (((s0 :: rest).map (fun s => s.championshipScore)).sum),
        s0.pointsAdjustment,
        (((s0 :: rest).map (fun s => s.actualPoints)).sum)) := by
  constructor
  · rw [entryFor_mergeResults, hocc]
    simp [foldl_accumulate_mergeResults, seedStanding]
  · rw [entryFor_part000, hocc]
    simp [foldl_accumulate_part000, seedStanding]

/-- Witness for the amended C1 at a concrete input. -/
theorem merge_numeric_field_policies_witness :
    (entryFor (MergeResults.mergeStandingsByDriver [exStandingA, exStandingB]) "Alice").map
        (fun r => (r.championshipPoints, r.championshipPenalties, r.championshipScore,
          r.pointsAdjustment, r.actualPoints)) = some (18, 2, 8, 4, 16) ∧
    (entryFor (Part000.mergeStandingsByDriver [exStandingA, exStandingB]) "Alice").map
        (fun r => (r.championshipPoints, r.championshipPenalties, r.championshipScore,
          r.pointsAdjustment, r.actualPoints)) = some (18, 1, 8, 2, 16) := by
  have h := merge_numeric_field_policies [exStandingA, exStandingB] "Alice"
    exStandingA [exStandingB] (by decide)
  rcases h with ⟨h1, h2⟩
  refine ⟨?_, ?_⟩
  · rw [h1]; decide
  · rw [h2]; decide

/-- C5: the merged championshipPoints and championshipScore of a driver
depend only on the driver's own occurrence list, so any re-partition of the
same contributions in the same order (N fragments versus 1) yields the same
sums, in both implementations. -/
theorem merge_invariant_under_repartition (frags1 frags2 : List (List Standing)) (d : String)
    (hsame : frags1.flatten.filter (fun s => s.id == d) =
      frags2.flatten.filter (fun s => s.id == d)) :
    ((entryFor (MergeResults.mergeStandingsByDriver frags1.flatten) d).map
        (fun r => (r.championshipPoints, r.championshipScore)) =
      (entryFor (MergeResults.mergeStandingsByDriver frags2.flatten) d).map
        (fun r => (r.championshipPoints, r.championshipScore))) ∧
    ((entryFor (Part000.mergeStandingsByDriver frags1.flatten) d).map
        (fun r => (r.championshipPoints, r.championshipScore)) =
      (entryFor (Part000.mergeStandingsByDriver frags2.flatten) d).map
        (fun r => (r.championshipPoints, r.championshipScore))) := by
  constructor
  · rw [entryFor_mergeResults, entryFor_mergeResults, hsame]
  · rw [entryFor_part000, entryFor_part000, hsame]

/-- Witness for C5: two fragments versus one fragment for driver "Alice". -/
theorem merge_invariant_under_repartition_witness :
    ((entryFor (MergeResults.mergeStandingsByDriver
        ([[exStandingA], [exStandingB]] : List (List Standing)).flatten) "Alice").map
        (fun r => (r.championshipPoints, r.championshipScore)) =
      (entryFor (MergeResults.mergeStandingsByDriver
        ([[exStandingA, exStandingB]] : List (List Standing)).flatten) "Alice").map
        (fun r => (r.championshipPoints, r.championshipScore))) ∧
    ((entryFor (Part000.mergeStandingsByDriver
        ([[exStandingA], [exStandingB]] : List (List Standing)).flatten) "Alice").map
        (fun r => (r.championshipPoints, r.championshipScore)) =
      (entryFor (Part000.mergeStandingsByDriver
        ([[exStandingA, exStandingB]] : List (List Standing)).flatten) "Alice").map
        (fun r => (r.championshipPoints, r.championshipScore))) :=
  merge_invariant_under_repartition [[exStandingA], [exStandingB]]
    [[exStandingA, exStandingB]] "Alice" (by decide)

/-- C6: the merged record's races list is exactly the concatenation, in
occurrence order, of the races lists of the driver's contributing records,
with no reordering and no deduplication, in both implementations. -/
theorem merged_races_concatenation (l : List Standing) (d : String) :
    ((entryFor (MergeResults.mergeStandingsByDriver l) d).map (fun r => r.races) =
      (match l.filter (fun s => s.id == d) with
        | [] => none
        | occs => some ((occs.map (fun s => s.races)).flatten))) ∧
    ((entryFor (Part000.mergeStandingsByDriver l) d).map (fun r => r.races) =
      (match l.filter (fun s => s.id == d) with
        | [] => none
        | occs => some ((occs.map (fun s => s.races)).flatten))) := by
  constructor
  · rw [entryFor_mergeResults]
    cases h : l.filter (fun s => s.id == d) with
    | nil => rfl
    | cons s rest => simp [foldl_accumulate_mergeResults, seedStanding]
  · rw [entryFor_part000]
    cases h : l.filter (fun s => s.id == d) with
    | nil => rfl
    | cons s rest => simp [foldl_accumulate_part000, seedStanding]

/-- C10 counterexample: on a concrete two-record input the two sibling
implementations of `mergeStandingsByDriver` return different lists (they
disagree on championshipPenalties and pointsAdjustment). -/
theorem sibling_mergers_differ_cex :
    MergeResults.mergeStandingsByDriver [exStandingA, exStandingB] ≠
      Part000.mergeStandingsByDriver [exStandingA, exStandingB] := by
  decide

theorem clear_accumulate_congr {a b : MergedStanding} (s : Standing)
    (h : clearDisputedFields a = clearDisputedFields b) :
    clearDisputedFields (MergeResults.accumulate a s) =
      clearDisputedFields (Part000.accumulate b s) := by
  cases a
  cases b
  simp only [clearDisputedFields, MergeResults.accumulate, Part000.accumulate,
    Standing.mk.injEq] at h ⊢
  simp_all

theorem map_clear_update (s : Standing) :
    ∀ (accA accB : List MergedStanding),
      accA.map clearDisputedFields = accB.map clearDisputedFields →
      (accA.map (fun e => if e.id == s.id then MergeResults.accumulate e s else e)).map
          clearDisputedFields =
        (accB.map (fun e => if e.id == s.id then Part000.accumulate e s else e)).map
          clearDisputedFields
  | [], [], _ => rfl
  | [], _ :: _, h => by simp at h
  | _ :: _, [], h => by simp at h
  | a :: ta, b :: tb, h => by
    simp only [List.map_cons] at h ⊢
    injection h with hhd htl
    have hhead : clearDisputedFields (if a.id == s.id then MergeResults.accumulate a s else a) =
        clearDisputedFields (if b.id == s.id then Part000.accumulate b s else b) := by
      have hab0 := congrArg Standing.id hhd
      have hab : a.id = b.id := hab0
      by_cases hc : (a.id == s.id : Bool)
      · rw [if_pos hc, if_pos (show (b.id == s.id) = true by rw [← hab]; exact hc)]
        exact clear_accumulate_congr s hhd
      · rw [if_neg hc, if_neg (show ¬ (b.id == s.id) = true by rw [← hab]; exact hc)]
        exact hhd
    rw [hhead, map_clear_update s ta tb htl]

theorem any_map_general {α β : Type} (l : List α) (f : α → β) (p : β → Bool) :
    (l.map f).any p = l.any (fun a => p (f a)) := by
  induction l with
  | nil => rfl
  | cons a t ih => simp [List.any_cons, ih]

theorem mergeLoop_clear_eq : ∀ (l : List Standing) (accA accB : List MergedStanding),
    accA.map clearDisputedFields = accB.map clearDisputedFields →
    (l.foldl (mergeStepWith MergeResults.accumulate) accA).map clearDisputedFields =
      (l.foldl (mergeStepWith Part000.accumulate) accB).map clearDisputedFields
  | [], _, _, h => h
  | s :: t, accA, accB, h => by
    rw [List.foldl_cons, List.foldl_cons]
    apply mergeLoop_clear_eq t
    have hids : accA.map (fun e => e.id) = accB.map (fun e => e.id) := by
      have h1 : accA.map (fun e => e.id) =
          (accA.map clearDisputedFields).map (fun e => e.id) := by
        rw [List.map_map]; rfl
      have h2 : accB.map (fun e => e.id) =
          (accB.map clearDisputedFields).map (fun e => e.id) := by
        rw [List.map_map]; rfl
      rw [h1, h2, h]
    have hany : accA.any (fun e => e.id == s.id) = accB.any (fun e => e.id == s.id) := by
      have ha := any_map_general accA (fun e => e.id) (fun x => x == s.id)
      have hb := any_map_general accB (fun e => e.id) (fun x => x == s.id)
      rw [← ha, ← hb, hids]
    unfold mergeStepWith
    by_cases hc : accA.any (fun e => e.id == s.id)
    · rw [if_pos hc, if_pos (show accB.any (fun e => e.id == s.id) = true by
        rw [← hany]; exact hc)]
      exact map_clear_update s accA accB h
    · rw [if_neg hc, if_neg (show ¬ accB.any (fun e => e.id == s.id) = true by
        rw [← hany]; exact hc)]
      rw [List.map_append, List.map_append, h]

/-- C10 (amended): the two sibling implementations of
`mergeStandingsByDriver` return lists that are equal after zeroing
championshipPenalties and pointsAdjustment — i.e. they agree on length,
order and every other field; they differ only in those two fields. -/
theorem sibling_mergers_agree_modulo_disputed_fields (l : List Standing) :
    (MergeResults.mergeStandingsByDriver l).map clearDisputedFields =
      (Part000.mergeStandingsByDriver l).map clearDisputedFields :=
  mergeLoop_clear_eq l [] [] rfl

theorem assignPositions_length (l : List MergedStanding) :
    (assignPositions l).length = l.length := by
  simp [assignPositions]

/-- C7: after ranking, the positions are dense: the list of assigned
positions is exactly [1, ..., K] in order, and the entry at sorted index
`i` is the input entry at `i` with position overwritten by `i + 1`. -/
theorem positions_dense (l : List MergedStanding) :
    ((assignPositions l).map (fun e => e.position) =
      (List.range l.length).map (fun i => Int.ofNat i + 1)) ∧
    ∀ i (hi : i < l.length),
      (assignPositions l).get ⟨i, by rw [assignPositions_length]; exact hi⟩ =
        { l.get ⟨i, hi⟩ with position := (i : Int) + 1 } := by
  constructor
  · apply List.ext_getElem
    · rw [List.length_map, assignPositions_length, List.length_map, List.length_range]
    · intro i h1 h2
      rw [List.getElem_map, List.getElem_map, List.getElem_range]
      simp [assignPositions]
  · intro i hi
    simp [assignPositions, List.get_eq_getElem]

/-- Witness for C7 at a concrete list and index. -/
theorem positions_dense_witness :
    ((assignPositions [exStandingA, exStandingB]).map (fun e => e.position) =
      (List.range ([exStandingA, exStandingB] : List MergedStanding).length).map
        (fun i => Int.ofNat i + 1)) ∧
    (assignPositions [exStandingA, exStandingB]).get
        ⟨0, by rw [assignPositions_length]; decide⟩ =
      { ([exStandingA, exStandingB] : List MergedStanding).get ⟨0, by decide⟩ with
        position := (0 : Int) + 1 } := by
  refine ⟨(positions_dense [exStandingA, exStandingB]).1, ?_⟩
  exact (positions_dense [exStandingA, exStandingB]).2 0 (by decide)

theorem dedupSeen_cons (seen : List String) (x : String) (xs : List String) :
    dedupSeen seen (x :: xs) =
      if seen.any (fun y => y == x) then dedupSeen seen xs
      else x :: dedupSeen (seen ++ [x]) xs := by
  simp only [dedupSeen]

theorem ids_map_update {f : MergedStanding → Standing → MergedStanding}
    (hid : ∀ e s, (f e s).id = e.id) (acc : List MergedStanding) (s : Standing) :
    (acc.map (fun e => if e.id == s.id then f e s else e)).map (fun e => e.id) =
      acc.map (fun e => e.id) := by
  rw [List.map_map]
  apply List.map_congr_left
  intro e _
  by_cases h : e.id = s.id
  · simp [h, hid]
  · simp [h]

/-- The ids of the merge loop's output extend the accumulator's ids by the
unseen input ids in first-occurrence order. -/
theorem mergeLoop_ids {f : MergedStanding → Standing → MergedStanding}
    (hid : ∀ e s, (f e s).id = e.id) :
    ∀ (l : List Standing) (acc : List MergedStanding),
      (l.foldl (mergeStepWith f) acc).map (fun e => e.id) =
        acc.map (fun e => e.id) ++
          dedupSeen (acc.map (fun e => e.id)) (l.map (fun s => s.id))
  | [], acc => by simp [dedupSeen]
  | s :: t, acc => by
    rw [List.foldl_cons, mergeLoop_ids hid t _, List.map_cons]
    unfold mergeStepWith
    have hc : acc.any (fun e => e.id == s.id) =
        (acc.map (fun e => e.id)).any (fun y => y == s.id) :=
      (any_map_general acc (fun e => e.id) (fun y => y == s.id)).symm
    by_cases h : acc.any (fun e => e.id == s.id)
    · rw [if_pos h]
      rw [dedupSeen_cons, if_pos (by rw [← hc]; exact h)]
      rw [ids_map_update hid]
    · rw [if_neg h]
      have hseed : (acc ++ [seedStanding s]).map (fun e => e.id) =
          acc.map (fun e => e.id) ++ [s.id] := by
        simp [seedStanding_id]
      rw [hseed]
      rw [dedupSeen_cons, if_neg (by rw [← hc]; exact h)]
      rw [List.append_assoc]
      rfl

/-- A retained id was not among the already-seen ids. -/
theorem dedupSeen_not_seen : ∀ (ls seen : List String) (x : String),
    x ∈ dedupSeen seen ls → (seen.any (fun y => y == x)) = false
  | [], _, _, hx => by simp [dedupSeen] at hx
  | z :: zs, seen, x, hx => by
    unfold dedupSeen at hx
    by_cases h : seen.any (fun y => y == z)
    · rw [if_pos h] at hx
      exact dedupSeen_not_seen zs seen x hx
    · rw [if_neg h] at hx
      rcases List.mem_cons.mp hx with rfl | hx2
      · exact Bool.eq_false_iff.mpr h
      · have h2 := dedupSeen_not_seen zs (seen ++ [z]) _ hx2
        rw [List.any_append] at h2
        exact (Bool.or_eq_false_iff.mp h2).1

/-- The retained ids are strictly ordered by first-occurrence index. -/
theorem dedupSeen_pairwise_firstIdx : ∀ (ls seen : List String),
    (dedupSeen seen ls).Pairwise (fun d1 d2 =>
      ls.findIdx (fun y => y == d1) < ls.findIdx (fun y => y == d2))
  | [], seen => by simp [dedupSeen]
  | z :: zs, seen => by
    unfold dedupSeen
    by_cases h : seen.any (fun y => y == z)
    · rw [if_pos h]
      apply (dedupSeen_pairwise_firstIdx zs seen).imp_of_mem
      intro d1 d2 h1 h2 hlt
      have hd1 := dedupSeen_not_seen zs seen d1 h1
      have hd2 := dedupSeen_not_seen zs seen d2 h2
      have hz1 : (z == d1) = false := by
        rw [beq_eq_false_iff_ne]
        rintro rfl
        rw [h] at hd1
        simp at hd1
      have hz2 : (z == d2) = false := by
        rw [beq_eq_false_iff_ne]
        rintro rfl
        rw [h] at hd2
        simp at hd2
      rw [List.findIdx_cons, List.findIdx_cons, hz1, hz2]
      simpa using hlt
    · rw [if_neg h]
      have hne : ∀ d ∈ dedupSeen (seen ++ [z]) zs, (z == d) = false := by
        intro d hd
        have h2 := dedupSeen_not_seen zs (seen ++ [z]) d hd
        rw [List.any_append] at h2
        have h3 := (Bool.or_eq_false_iff.mp h2).2
        simp only [List.any_cons, List.any_nil, Bool.or_false] at h3
        exact h3
      constructor
      · intro d hd
        rw [List.findIdx_cons, List.findIdx_cons, hne d hd]
        simp
      · apply (dedupSeen_pairwise_firstIdx zs (seen ++ [z])).imp_of_mem
        intro d1 d2 h1 h2 hlt
        rw [List.findIdx_cons, List.findIdx_cons, hne d1 h1, hne d2 h2]
        simpa using hlt

/-- The retained ids are pairwise distinct. -/
theorem dedupSeen_nodup (seen ls : List String) : (dedupSeen seen ls).Nodup := by
  apply (dedupSeen_pairwise_firstIdx ls seen).imp
  intro d1 d2 hlt
  intro hEq
  rw [hEq] at hlt
  exact lt_irrefl _ hlt

theorem mergeResults_ids (l : List Standing) :
    (MergeResults.mergeStandingsByDriver l).map (fun e => e.id) =
      dedupSeen [] (l.map (fun s => s.id)) := by
  unfold MergeResults.mergeStandingsByDriver mergeLoopWith
  rw [mergeLoop_ids mergeResults_accumulate_id l []]
  rfl

theorem part000_ids (l : List Standing) :
    (Part000.mergeStandingsByDriver l).map (fun e => e.id) =
      dedupSeen [] (l.map (fun s => s.id)) := by
  unfold Part000.mergeStandingsByDriver mergeLoopWith
  rw [mergeLoop_ids part000_accumulate_id l []]
  rfl

theorem assignPositions_ids (m : List MergedStanding) :
    (assignPositions m).map (fun e => e.id) = m.map (fun e => e.id) := by
  apply List.ext_getElem
  · simp [assignPositions]
  · intro i h1 h2
    simp [assignPositions]

theorem sortStandingsByPoints_perm (m : List MergedStanding) :
    List.Perm (sortStandingsByPoints m) m :=
  List.perm_insertionSort standingOrder m

theorem ranker_ids_nodup {m : List MergedStanding}
    (hm : (m.map (fun e => e.id)).Nodup) :
    ((assignPositions (sortStandingsByPoints m)).map (fun e => e.id)).Nodup := by
  rw [assignPositions_ids]
  exact (((sortStandingsByPoints_perm m).map (fun e => e.id)).nodup_iff).mpr hm

/-- C8: after merging, driver identity is unique within the class, and the
Ranker (stable sort followed by position assignment) preserves this
uniqueness; this holds for both sibling implementations. -/
theorem merged_driver_ids_unique (l : List Standing) :
    ((MergeResults.mergeStandingsByDriver l).map (fun e => e.id)).Nodup ∧
    ((assignPositions (sortStandingsByPoints (MergeResults.mergeStandingsByDriver l))).map
        (fun e => e.id)).Nodup ∧
    ((Part000.mergeStandingsByDriver l).map (fun e => e.id)).Nodup ∧
    ((assignPositions (sortStandingsByPoints (Part000.mergeStandingsByDriver l))).map
        (fun e => e.id)).Nodup := by
  have h1 : ((MergeResults.mergeStandingsByDriver l).map (fun e => e.id)).Nodup := by
    rw [mergeResults_ids]; exact dedupSeen_nodup _ _
  have h2 : ((Part000.mergeStandingsByDriver l).map (fun e => e.id)).Nodup := by
    rw [part000_ids]; exact dedupSeen_nodup _ _
  exact ⟨h1, ranker_ids_nodup h1, h2, ranker_ids_nodup h2⟩

/-- C3: in the output of `sortStandingsByPoints`, for every pair of indices
whose entries are not tied on both keys, the entry at `i` appears before
the entry at `j` exactly when it beats it on points, or ties on points and
beats it on score. -/
theorem sort_order_iff (standings : List MergedStanding) (i j : Nat)
    (hi : i < (sortStandingsByPoints standings).length)
    (hj : j < (sortStandingsByPoints standings).length)
    (hnotie : ¬ (((sortStandingsByPoints standings).get ⟨i, hi⟩).championshipPoints =
        ((sortStandingsByPoints standings).get ⟨j, hj⟩).championshipPoints ∧
      ((sortStandingsByPoints standings).get ⟨i, hi⟩).championshipScore =
        ((sortStandingsByPoints standings).get ⟨j, hj⟩).championshipScore)) :
    (i < j ↔ standingLexGT ((sortStandingsByPoints standings).get ⟨i, hi⟩)
      ((sortStandingsByPoints standings).get ⟨j, hj⟩)) := by
  have hsorted : (sortStandingsByPoints standings).Pairwise standingOrder :=
    List.sorted_insertionSort standingOrder standings
  rw [List.pairwise_iff_getElem] at hsorted
  simp only [List.get_eq_getElem] at hnotie ⊢
  constructor
  · intro hij
    have hord := hsorted i j hi hj hij
    rw [standingOrder_iff] at hord
    unfold standingLexGT
    omega
  · intro hgt
    rcases Nat.lt_trichotomy i j with h | h | h
    · exact h
    · subst h
      unfold standingLexGT at hgt
      omega
    · have hord := hsorted j i hj hi h
      rw [standingOrder_iff] at hord
      unfold standingLexGT at hgt
      omega

/-- Witness for C3 at a concrete two-element input. -/
theorem sort_order_iff_witness :
    (0 < 1 ↔ standingLexGT
      ((sortStandingsByPoints [exStandingA, exStandingB]).get ⟨0, by decide⟩)
      ((sortStandingsByPoints [exStandingA, exStandingB]).get ⟨1, by decide⟩)) :=
  sort_order_iff [exStandingA, exStandingB] 0 1 (by decide) (by decide) (by decide)

theorem firstOccIdx_eq_findIdx_map (l : List Standing) (d : String) :
    firstOccIdx l d = (l.map (fun s => s.id)).findIdx (fun y => y == d) := by
  unfold firstOccIdx
  induction l with
  | nil => rfl
  | cons s t ih =>
    rw [List.map_cons, List.findIdx_cons, List.findIdx_cons, ih]

theorem pair_sublist_of_lt {α : Type} (l : List α) (i j : Nat)
    (hi : i < l.length) (hj : j < l.length) (hij : i < j) :
    List.Sublist [l.get ⟨i, hi⟩, l.get ⟨j, hj⟩] l := by
  have h1 : List.Sublist [l.get ⟨i, hi⟩] (l.take (i + 1)) := by
    rw [List.singleton_sublist, List.mem_iff_getElem]
    refine ⟨i, by rw [List.length_take]; omega, ?_⟩
    rw [List.getElem_take]
    simp [List.get_eq_getElem]
  have h2 : List.Sublist [l.get ⟨j, hj⟩] (l.drop (i + 1)) := by
    rw [List.singleton_sublist, List.mem_iff_getElem]
    refine ⟨j - (i + 1), by rw [List.length_drop]; omega, ?_⟩
    rw [List.getElem_drop]
    simp only [List.get_eq_getElem]
    congr 1
    omega
  have h3 := List.Sublist.append h1 h2
  rw [List.take_append_drop] at h3
  exact h3

theorem pair_sublist_index {α : Type} {x y : α} :
    ∀ {l : List α}, List.Sublist [x, y] l →
      ∃ (i j : Nat) (hi : i < l.length) (hj : j < l.length),
        i < j ∧ l.get ⟨i, hi⟩ = x ∧ l.get ⟨j, hj⟩ = y := by
  intro l h
  induction l with
  | nil => cases h
  | cons c t ih =>
    cases h with
    | cons _ h' =>
      obtain ⟨i, j, hi, hj, hij, hx, hy⟩ := ih h'
      refine ⟨i + 1, j + 1, by simp only [List.length_cons]; omega,
        by simp only [List.length_cons]; omega, by omega, ?_, ?_⟩
      · simpa using hx
      · simpa using hy
    | cons₂ _ h' =>
      have hy : y ∈ t := List.singleton_sublist.mp h'
      rw [List.mem_iff_getElem] at hy
      obtain ⟨j, hjt, hyj⟩ := hy
      refine ⟨0, j + 1, by simp only [List.length_cons]; omega,
        by simp only [List.length_cons]; omega, by omega, rfl, ?_⟩
      simpa using hyj

theorem getElem_inj_of_map_nodup {α β : Type} {l : List α} {g : α → β}
    (h : (l.map g).Nodup) (i j : Nat) (hi : i < l.length) (hj : j < l.length)
    (heq : g (l.get ⟨i, hi⟩) = g (l.get ⟨j, hj⟩)) : i = j := by
  have hmi : i < (l.map g).length := by rw [List.length_map]; exact hi
  have hmj : j < (l.map g).length := by rw [List.length_map]; exact hj
  have h1 : (l.map g).get ⟨i, hmi⟩ = (l.map g).get ⟨j, hmj⟩ := by
    simp only [List.get_eq_getElem, List.getElem_map]
    simpa [List.get_eq_getElem] using heq
  have h2 := (h.get_inj_iff).mp h1
  exact congrArg Fin.val h2

/-- Stability of the ranker: among entries tied on both sort keys, the
sorted order agrees with any strict order that held pairwise on the input
ids — stated with the first-occurrence index order. -/
theorem sorted_tie_order_iff {m : List MergedStanding} {l : List Standing}
    (hpair : (m.map (fun e => e.id)).Pairwise
      (fun d1 d2 => firstOccIdx l d1 < firstOccIdx l d2))
    (i j : Nat) (hi : i < (sortStandingsByPoints m).length)
    (hj : j < (sortStandingsByPoints m).length)
    (hpts : ((sortStandingsByPoints m).get ⟨i, hi⟩).championshipPoints =
      ((sortStandingsByPoints m).get ⟨j, hj⟩).championshipPoints)
    (hscore : ((sortStandingsByPoints m).get ⟨i, hi⟩).championshipScore =
      ((sortStandingsByPoints m).get ⟨j, hj⟩).championshipScore) :
    (i < j ↔ firstOccIdx l ((sortStandingsByPoints m).get ⟨i, hi⟩).id <
      firstOccIdx l ((sortStandingsByPoints m).get ⟨j, hj⟩).id) := by
  have hmndp : (m.map (fun e => e.id)).Nodup := by
    apply hpair.imp
    intro d1 d2 hlt hEq
    rw [hEq] at hlt
    exact lt_irrefl _ hlt
  have hperm : List.Perm (sortStandingsByPoints m) m := sortStandingsByPoints_perm m
  have houtndp : ((sortStandingsByPoints m).map (fun e => e.id)).Nodup :=
    ((hperm.map (fun e => e.id)).nodup_iff).mpr hmndp
  have forward : ∀ (p q : Nat) (hp : p < (sortStandingsByPoints m).length)
      (hq : q < (sortStandingsByPoints m).length),
      p < q →
      ((sortStandingsByPoints m).get ⟨p, hp⟩).championshipPoints =
        ((sortStandingsByPoints m).get ⟨q, hq⟩).championshipPoints →
      ((sortStandingsByPoints m).get ⟨p, hp⟩).championshipScore =
        ((sortStandingsByPoints m).get ⟨q, hq⟩).championshipScore →
      firstOccIdx l ((sortStandingsByPoints m).get ⟨p, hp⟩).id <
        firstOccIdx l ((sortStandingsByPoints m).get ⟨q, hq⟩).id := by
    intro p q hp hq hpq hpts2 hscore2
    have hidne : ((sortStandingsByPoints m).get ⟨p, hp⟩).id ≠
        ((sortStandingsByPoints m).get ⟨q, hq⟩).id := by
      intro hEq
      have := getElem_inj_of_map_nodup houtndp p q hp hq hEq
      omega
    have hma : (sortStandingsByPoints m).get ⟨p, hp⟩ ∈ m :=
      hperm.mem_iff.mp (List.get_mem _ _ _)
    have hmb : (sortStandingsByPoints m).get ⟨q, hq⟩ ∈ m :=
      hperm.mem_iff.mp (List.get_mem _ _ _)
    rw [List.mem_iff_getElem] at hma hmb
    obtain ⟨ia, hia, haeq⟩ := hma
    obtain ⟨ib, hib, hbeq⟩ := hmb
    rcases Nat.lt_or_ge ia ib with hlt | hge
    · have hp2 := (List.pairwise_iff_getElem.mp hpair) ia ib
        (by rw [List.length_map]; exact hia) (by rw [List.length_map]; exact hib) hlt
      rw [List.getElem_map, List.getElem_map] at hp2
      rw [haeq, hbeq] at hp2
      exact hp2
    · have hiaib : ia ≠ ib := by
        intro hEq
        subst hEq
        rw [haeq] at hbeq
        exact hidne (by rw [hbeq])
      have hlt2 : ib < ia := by omega
      have hsub0 := pair_sublist_of_lt m ib ia hib hia hlt2
      have hgb : m.get ⟨ib, hib⟩ = (sortStandingsByPoints m).get ⟨q, hq⟩ := by
        simpa [List.get_eq_getElem] using hbeq
      have hga : m.get ⟨ia, hia⟩ = (sortStandingsByPoints m).get ⟨p, hp⟩ := by
        simpa [List.get_eq_getElem] using haeq
      rw [hgb, hga] at hsub0
      have hba : standingOrder ((sortStandingsByPoints m).get ⟨q, hq⟩)
          ((sortStandingsByPoints m).get ⟨p, hp⟩) := by
        rw [standingOrder_iff]
        omega
      have hsub2 : List.Sublist
          [(sortStandingsByPoints m).get ⟨q, hq⟩, (sortStandingsByPoints m).get ⟨p, hp⟩]
          (sortStandingsByPoints m) :=
        List.pair_sublist_insertionSort hba hsub0
      obtain ⟨p2, q2, hp2, hq2, hpq2, hbeq2, haeq2⟩ := pair_sublist_index hsub2
      have hq2q : p2 = q :=
        getElem_inj_of_map_nodup houtndp p2 q hp2 hq (by rw [hbeq2])
      have hp2p : q2 = p :=
        getElem_inj_of_map_nodup houtndp q2 p hq2 hp (by rw [haeq2])
      omega
  constructor
  · intro hij
    exact forward i j hi hj hij hpts hscore
  · intro hgt
    rcases Nat.lt_trichotomy i j with h | h | h
    · exact h
    · subst h
      omega
    · have := forward j i hj hi h hpts.symm hscore.symm
      omega

theorem merge_ids_pairwise_firstOcc_mr (l : List Standing) :
    ((MergeResults.mergeStandingsByDriver l).map (fun e => e.id)).Pairwise
      (fun d1 d2 => firstOccIdx l d1 < firstOccIdx l d2) := by
  rw [mergeResults_ids]
  apply (dedupSeen_pairwise_firstIdx (l.map (fun s => s.id)) []).imp
  intro d1 d2 h
  rw [firstOccIdx_eq_findIdx_map, firstOccIdx_eq_findIdx_map]
  exact h

theorem merge_ids_pairwise_firstOcc_p0 (l : List Standing) :
    ((Part000.mergeStandingsByDriver l).map (fun e => e.id)).Pairwise
      (fun d1 d2 => firstOccIdx l d1 < firstOccIdx l d2) := by
  rw [part000_ids]
  apply (dedupSeen_pairwise_firstIdx (l.map (fun s => s.id)) []).imp
  intro d1 d2 h
  rw [firstOccIdx_eq_findIdx_map, firstOccIdx_eq_findIdx_map]
  exact h

/-- C4: among ranked entries with equal championshipPoints and equal
championshipScore, the relative order in the ranked output equals the
relative order of the first occurrences of their driver ids in the class
input, for both sibling implementations of the merger. -/
theorem rank_stability_first_occurrence (l : List Standing) :
    (∀ (i j : Nat)
      (hi : i < (sortStandingsByPoints (MergeResults.mergeStandingsByDriver l)).length)
      (hj : j < (sortStandingsByPoints (MergeResults.mergeStandingsByDriver l)).length),
      ((sortStandingsByPoints (MergeResults.mergeStandingsByDriver l)).get
          ⟨i, hi⟩).championshipPoints =
        ((sortStandingsByPoints (MergeResults.mergeStandingsByDriver l)).get
          ⟨j, hj⟩).championshipPoints →
      ((sortStandingsByPoints (MergeResults.mergeStandingsByDriver l)).get
          ⟨i, hi⟩).championshipScore =
        ((sortStandingsByPoints (MergeResults.mergeStandingsByDriver l)).get
          ⟨j, hj⟩).championshipScore →
      (i < j ↔
        firstOccIdx l ((sortStandingsByPoints (MergeResults.mergeStandingsByDriver l)).get
            ⟨i, hi⟩).id <
          firstOccIdx l ((sortStandingsByPoints (MergeResults.mergeStandingsByDriver l)).get
            ⟨j, hj⟩).id)) ∧
    (∀ (i j : Nat)
      (hi : i < (sortStandingsByPoints (Part000.mergeStandingsByDriver l)).length)
      (hj : j < (sortStandingsByPoints (Part000.mergeStandingsByDriver l)).length),
      ((sortStandingsByPoints (Part000.mergeStandingsByDriver l)).get
          ⟨i, hi⟩).championshipPoints =
        ((sortStandingsByPoints (Part000.mergeStandingsByDriver l)).get
          ⟨j, hj⟩).championshipPoints →
      ((sortStandingsByPoints (Part000.mergeStandingsByDriver l)).get
          ⟨i, hi⟩).championshipScore =
        ((sortStandingsByPoints (Part000.mergeStandingsByDriver l)).get
          ⟨j, hj⟩).championshipScore →
      (i < j ↔
        firstOccIdx l ((sortStandingsByPoints (Part000.mergeStandingsByDriver l)).get
            ⟨i, hi⟩).id <
          firstOccIdx l ((sortStandingsByPoints (Part000.mergeStandingsByDriver l)).get
            ⟨j, hj⟩).id)) := by
  constructor
  · intro i j hi hj hpts hscore
    exact sorted_tie_order_iff (merge_ids_pairwise_firstOcc_mr l) i j hi hj hpts hscore
  · intro i j hi hj hpts hscore
    exact sorted_tie_order_iff (merge_ids_pairwise_firstOcc_p0 l) i j hi hj hpts hscore

/-- Witness for C4 at a concrete tied input. -/
theorem rank_stability_first_occurrence_witness :
    (0 < 1 ↔
      firstOccIdx [exStandingA, exStandingC]
          ((sortStandingsByPoints (MergeResults.mergeStandingsByDriver
            [exStandingA, exStandingC])).get ⟨0, by decide⟩).id <
        firstOccIdx [exStandingA, exStandingC]
          ((sortStandingsByPoints (MergeResults.mergeStandingsByDriver
            [exStandingA, exStandingC])).get ⟨1, by decide⟩).id) ∧
    (0 < 1 ↔
      firstOccIdx [exStandingA, exStandingC]
          ((sortStandingsByPoints (Part000.mergeStandingsByDriver
            [exStandingA, exStandingC])).get ⟨0, by decide⟩).id <
        firstOccIdx [exStandingA, exStandingC]
          ((sortStandingsByPoints (Part000.mergeStandingsByDriver
            [exStandingA, exStandingC])).get ⟨1, by decide⟩).id) :=
  ⟨(rank_stability_first_occurrence [exStandingA, exStandingC]).1 0 1
      (by decide) (by decide) (by decide) (by decide),
    (rank_stability_first_occurrence [exStandingA, exStandingC]).2 0 1
      (by decide) (by decide) (by decide) (by decide)⟩

theorem mk_length (l : List Char) : (String.mk l).length = l.length := rfl

theorem replicate_str_length (n : Nat) (c : Char) :
    (String.mk (List.replicate n c)).length = n := by
  rw [mk_length, List.length_replicate]

theorem take_str_length (l : List Char) (n : Nat) :
    (String.mk (l.take n)).length = min n l.length := by
  rw [mk_length, List.length_take]

theorem padStart_length (s : String) (w : Nat) :
    (padStart s w).length = max w s.length := by
  unfold padStart
  rw [String.length_append, replicate_str_length]
  omega

theorem padEnd_length (s : String) (w : Nat) :
    (padEnd s w).length = max w s.length := by
  unfold padEnd
  rw [String.length_append, replicate_str_length]
  omega

theorem truncateText_length_le (text : String) (w : Nat) (hw : 1 ≤ w) :
    (MergeResults.truncateText text w).length ≤ w := by
  unfold MergeResults.truncateText substringTo
  split
  · omega
  · rw [String.length_append, take_str_length]
    have h1 : (".").length = 1 := rfl
    have hdata : text.data.length = text.length := rfl
    omega

theorem truncateAndPad_length (text : String) (w : Nat) (hw : 3 ≤ w) :
    (Part000.truncateAndPad text w).length = w := by
  unfold Part000.truncateAndPad substringTo
  split
  · rw [String.length_append, take_str_length]
    have h3 : ("...").length = 3 := rfl
    have hdata : text.data.length = text.length := rfl
    omega
  · rw [padEnd_length]
    omega

/-- C2 counterexample: the points field of `src/merge-results.ts` is padded
but never truncated, so a four-digit championshipPoints value produces a
row longer than the fixed width (43 instead of 42 characters). -/
theorem formatted_row_width_cex :
    (MergeResults.formatStandingLine exWideStanding).length ≠
      MergeResults.POS_WIDTH + 1 + MergeResults.DRIVER_WIDTH + 3 +
        MergeResults.CAR_WIDTH + 3 + MergeResults.POINTS_WIDTH := by
  decide

/-- C2 (amended): every rendered standings row has the fixed total width
(sum of the column widths plus separators) provided the rendered position
string fits its column (both files) and, in `src/merge-results.ts`, the
rendered points string fits its column; the driver and car fields are
truncated with a visible marker or padded, but the position field (both
files) and the points field (merge-results.ts) are only padded, never
truncated, so over-wide values there break the invariant. -/
theorem formatted_row_width_invariant (standing : MergedStanding) :
    ((toString standing.position ++ ".").length ≤ MergeResults.POS_WIDTH →
      (toString standing.championshipPoints).length ≤ MergeResults.POINTS_WIDTH →
      (MergeResults.formatStandingLine standing).length =
        MergeResults.POS_WIDTH + 1 + MergeResults.DRIVER_WIDTH + 3 +
          MergeResults.CAR_WIDTH + 3 + MergeResults.POINTS_WIDTH) ∧
    ((toString standing.position ++ ".").length ≤ Part000.POS_WIDTH →
      (Part000.formatStandingLine standing).length =
        Part000.POS_WIDTH + 3 + Part000.DRIVER_WIDTH + 3 +
          Part000.CAR_WIDTH + 3 + Part000.POINTS_WIDTH) := by
  constructor
  · intro hpos hpts
    unfold MergeResults.formatStandingLine toFixed0
    rw [String.length_append, String.length_append, String.length_append,
      String.length_append, String.length_append, String.length_append,
      padStart_length, padStart_length, padEnd_length, padEnd_length]
    have h1 : (" ").length = 1 := rfl
    have h3 : (" | ").length = 3 := rfl
    have ht1 := truncateText_length_le (trimString standing.id)
      MergeResults.DRIVER_WIDTH (by decide)
    have ht2 := truncateText_length_le (trimString standing.car)
      MergeResults.CAR_WIDTH (by decide)
    simp only [MergeResults.POS_WIDTH, MergeResults.DRIVER_WIDTH,
      MergeResults.CAR_WIDTH, MergeResults.POINTS_WIDTH] at *
    omega
  · intro hpos
    unfold Part000.formatStandingLine Part000.formatStandingPosition toFixed1
    rw [String.length_append, String.length_append, String.length_append,
      String.length_append, String.length_append, String.length_append,
      padStart_length,
      truncateAndPad_length _ _ (by decide), truncateAndPad_length _ _ (by decide),
      truncateAndPad_length _ _ (by decide)]
    have h3 : (" | ").length = 3 := rfl
    simp only [Part000.POS_WIDTH, Part000.DRIVER_WIDTH,
      Part000.CAR_WIDTH, Part000.POINTS_WIDTH] at *
    omega

/-- Witness for the amended C2 at a concrete in-range standing. -/
theorem formatted_row_width_invariant_witness :
    (MergeResults.formatStandingLine exStandingA).length =
      MergeResults.POS_WIDTH + 1 + MergeResults.DRIVER_WIDTH + 3 +
        MergeResults.CAR_WIDTH + 3 + MergeResults.POINTS_WIDTH ∧
    (Part000.formatStandingLine exStandingA).length =
      Part000.POS_WIDTH + 3 + Part000.DRIVER_WIDTH + 3 +
        Part000.CAR_WIDTH + 3 + Part000.POINTS_WIDTH :=
  ⟨(formatted_row_width_invariant exStandingA).1 (by decide) (by decide),
    (formatted_row_width_invariant exStandingA).2 (by decide)⟩

theorem foldlM_parse_error :
    ∀ (fs : List FragmentFile) (acc : List ClassData),
      (∃ file ∈ fs, file.parsed = none) →
      fs.foldlM (fun allData file =>
        match file.parsed with
        | some data => Except.ok (allData ++ data)
        | none => Except.error "SyntaxError: JSON.parse failed") acc =
        Except.error "SyntaxError: JSON.parse failed"
  | [], _, h => by simp at h
  | f :: t, acc, h => by
    simp only [List.foldlM]
    cases hp : f.parsed with
    | none => rfl
    | some data =>
      rcases h with ⟨g, hg, hgp⟩
      rcases List.mem_cons.mp hg with rfl | hgt
      · rw [hp] at hgp
        cases hgp
      · exact foldlM_parse_error t (acc ++ data) ⟨g, hgt, hgp⟩

theorem readAllJsonFiles_error (files : List FragmentFile)
    (hbad : ∃ file ∈ files, hasJsonExtension file.name = true ∧ file.parsed = none) :
    readAllJsonFiles files = Except.error "SyntaxError: JSON.parse failed" := by
  unfold readAllJsonFiles
  rcases hbad with ⟨file, hf, hext, hparse⟩
  exact foldlM_parse_error _ []
    ⟨file, List.mem_filter.mpr ⟨hf, hext⟩, hparse⟩

/-- C9: a fragment file with a `.json` name whose content fails to parse
aborts the whole run: the pipeline returns an error, no partial
aggregation of the remaining fragments takes place, and no report string
is produced for the sink. -/
theorem malformed_fragment_aborts_run (files : List FragmentFile)
    (hbad : ∃ file ∈ files, hasJsonExtension file.name = true ∧ file.parsed = none) :
    mergeAndSortResults files = Except.error "SyntaxError: JSON.parse failed" ∧
    ∀ out : String, mergeAndSortResults files ≠ Except.ok out := by
  have herr := readAllJsonFiles_error files hbad
  have hrun : mergeAndSortResults files =
      Except.error "SyntaxError: JSON.parse failed" := by
    unfold mergeAndSortResults
    rw [herr]
    rfl
  refine ⟨hrun, ?_⟩
  intro out hok
  rw [hrun] at hok
  cases hok

/-- Witness for C9 at a concrete one-file directory. -/
theorem malformed_fragment_aborts_run_witness :
    mergeAndSortResults [exBadFile] = Except.error "SyntaxError: JSON.parse failed" ∧
    ∀ out : String, mergeAndSortResults [exBadFile] ≠ Except.ok out :=
  malformed_fragment_aborts_run [exBadFile]
    ⟨exBadFile, by decide, by decide, rfl⟩
